import Mathlib

set_option maxRecDepth 8000

/-!
Verification of the drift gateway's request-translation and transaction core.

The definitions below are a shallow embedding of the gateway's Rust source
(`src/types.rs`, `src/controller.rs`, `src/main.rs`, `src/websocket.rs`).
Machine integers are modelled as `Nat`/`Int` with explicit wrap-around
(`% 2 ^ 64` and friends) exactly where the source casts between widths.
Rust panics (`unwrap`, `expect`, decimal division by zero) are modelled by
`Option` results, `none` meaning a panic.
-/

/-- Rust `as u64` applied to a `u128` value. -/
def u64wrap (n : Nat) : Nat := n % 2 ^ 64

/-- Rust `as u32` applied to a wider unsigned value. -/
def u32wrap (n : Nat) : Nat := n % 2 ^ 32

/-- Rust `as i64` (also release-mode wrap-around of `i64` arithmetic). -/
def i64wrap (v : Int) : Int := (v + 2 ^ 63) % 2 ^ 64 - 2 ^ 63

/-- Rust `as i32` applied to a wider signed value. -/
def i32wrap (v : Int) : Int := (v + 2 ^ 31) % 2 ^ 32 - 2 ^ 31

/-- Rust release-mode `i128` arithmetic wrap-around (debug builds panic on
the same overflow). -/
def i128wrap (v : Int) : Int := (v + 2 ^ 127) % 2 ^ 128 - 2 ^ 127

/-- `rust_decimal::Decimal`: a sign flag, a 96-bit mantissa magnitude and a
scale (number of decimal places). The represented value is
`± mabs / 10 ^ scale`. -/
structure Decimal where
  negative : Bool
  mabs : Nat
  scale : Nat
deriving DecidableEq, Repr

/-- Values actually representable by `rust_decimal`: 96-bit mantissa
magnitude, scale at most 28. -/
def Decimal.Wf (d : Decimal) : Prop := d.mabs < 2 ^ 96 ∧ d.scale ≤ 28

instance (d : Decimal) : Decidable d.Wf := by
  unfold Decimal.Wf; infer_instance

/-- `Decimal::mantissa()`: the signed mantissa as `i128`. -/
def Decimal.mantissa (d : Decimal) : Int :=
  if d.negative then -(d.mabs : Int) else (d.mabs : Int)

/-- `Decimal::is_sign_negative()`: the raw sign flag. -/
def Decimal.isSignNegative (d : Decimal) : Bool := d.negative

/-- `Decimal::abs()`: clears the sign flag, mantissa and scale unchanged. -/
def Decimal.abs (d : Decimal) : Decimal := { d with negative := false }

/-- `Decimal::new(m, scale)`: panics (`none`) when `scale > 28`; any `i64`
mantissa fits in 96 bits. -/
def Decimal.new? (m : Int) (s : Nat) : Option Decimal :=
  if s ≤ 28 then some ⟨decide (m < 0), m.natAbs, s⟩ else none

/-- `Decimal::new` at a scale statically known to be valid (≤ 28). -/
def Decimal.ofInt (m : Int) (s : Nat) : Decimal := ⟨decide (m < 0), m.natAbs, s⟩

/-- Helper for `Decimal::normalize()`: strip trailing zero digits while the
scale is positive. -/
def Decimal.normLoop (neg : Bool) : Nat → Nat → Decimal
  | m, 0 => ⟨neg, m, 0⟩
  | m, s + 1 => if m % 10 = 0 then Decimal.normLoop neg (m / 10) s else ⟨neg, m, s + 1⟩

/-- `Decimal::normalize()`. -/
def Decimal.normalize (d : Decimal) : Decimal := Decimal.normLoop d.negative d.mabs d.scale

/-- Decimal places in price values: `PRICE_PRECISION.ilog10()` (types.rs). -/
def PRICE_DECIMALS : Nat := 6

/-- Drift price precision constant, `10 ^ 6`. -/
def PRICE_PRECISION : Nat := 10 ^ 6

/-- `scale_decimal_to_u64` (types.rs):
`((x.mantissa().unsigned_abs() * target as u128) / 10u128.pow(x.scale())) as u64`.
The `u128` product of a 96-bit mantissa and a 32-bit target cannot overflow,
so the only wrap is the final `as u64` cast. -/
def scale_decimal_to_u64 (x : Decimal) (target : Nat) : Nat :=
  u64wrap ((x.mabs * target) / 10 ^ x.scale)

/-- `scale_decimal_to_i64` (types.rs):
`((x.mantissa() * target as i128) / 10i128.pow(x.scale())) as i64`.
The `i128` product wraps once `|mantissa| * target` reaches `2 ^ 127`
(release mode); `i128` division truncates toward zero (`Int.tdiv`); the
final `as i64` cast wraps. The divisor `10i128.pow(scale)` is exact for
every representable scale (at most 28). -/
def scale_decimal_to_i64 (x : Decimal) (target : Nat) : Int :=
  i64wrap (Int.tdiv (i128wrap (x.mantissa * target)) ((10 : Int) ^ x.scale))

/-- Drift market type. -/
inductive MarketType
  | Perp
  | Spot
deriving DecidableEq, Repr

/-- Drift position direction. -/
inductive PositionDirection
  | Long
  | Short
deriving DecidableEq, Repr

/-- Drift post-only parameter of `OrderParams`. -/
inductive PostOnlyParam
  | None
  | MustPostOnly
  | TryPostOnly
  | Slide
deriving DecidableEq, Repr

/-- Drift order type. -/
inductive OrderType
  | Limit
  | Market
  | TriggerLimit
  | TriggerMarket
  | Oracle
deriving DecidableEq, Repr

/-- Gateway market identity (types.rs `Market`). -/
structure Market where
  market_index : Nat
  market_type : MarketType
deriving DecidableEq, Repr

/-- `Market::perp` (types.rs). -/
def Market.perp (index : Nat) : Market := ⟨index, .Perp⟩

/-- `Market::spot` (types.rs). -/
def Market.spot (index : Nat) : Market := ⟨index, .Spot⟩

/-- The slice of `drift_rs::ProgramData` the gateway reads: the per-market
decimals of the cached spot market configs (`none` when the market index has
no config in the cache). -/
structure ProgramData where
  spotDecimals : Nat → Option Nat

/-- `get_market_decimals` (types.rs): perp markets use
`BASE_PRECISION.ilog10() = 9`; spot markets read the cached config, and the
source's `.expect("market exists")` panics (`none`) when it is absent. -/
def get_market_decimals (pd : ProgramData) (market : Market) : Option Nat :=
  match market.market_type with
  | .Perp => some 9
  | .Spot => pd.spotDecimals market.market_index

/-- Gateway `PlaceOrder` request intent (types.rs). -/
structure PlaceOrder where
  market : Market
  amount : Decimal
  price : Decimal
  user_order_id : Nat
  order_type : OrderType
  post_only : Bool
  reduce_only : Bool
  oracle_price_offset : Option Decimal
  max_ts : Option Int
deriving DecidableEq, Repr

/-- The drift `OrderParams` fields that `PlaceOrder::to_order_params` sets
(the remaining fields are filled by `..Default::default()` in the source and
are not read by any claim). -/
structure OrderParams where
  market_index : Nat
  market_type : MarketType
  order_type : OrderType
  base_asset_amount : Nat
  direction : PositionDirection
  price : Nat
  reduce_only : Bool
  post_only : PostOnlyParam
  user_order_id : Nat
  oracle_price_offset : Option Int
  max_ts : Option Int
deriving DecidableEq, Repr

/-- `PlaceOrder::to_order_params` (types.rs). `10_u32.pow(base_decimals)`
is a `u32` computation, hence the `u32wrap`. -/
def PlaceOrder.to_order_params (p : PlaceOrder) (base_decimals : Nat) : OrderParams :=
  let target_scale := u32wrap (10 ^ base_decimals)
  let base_amount := scale_decimal_to_u64 p.amount.abs target_scale
  let price :=
    if p.oracle_price_offset.isNone then scale_decimal_to_u64 p.price PRICE_PRECISION
    else 0
  { market_index := p.market.market_index
    market_type := p.market.market_type
    order_type := p.order_type
    base_asset_amount := base_amount
    direction := if p.amount.isSignNegative then .Short else .Long
    price := price
    reduce_only := p.reduce_only
    post_only := if p.post_only then .MustPostOnly else .None
    user_order_id := p.user_order_id
    oracle_price_offset :=
      p.oracle_price_offset.map (fun x => i32wrap (scale_decimal_to_i64 x PRICE_PRECISION))
    max_ts := p.max_ts }

/-- Gateway `ModifyOrder` request intent (types.rs). -/
structure ModifyOrder where
  market : Market
  amount : Option Decimal
  price : Option Decimal
  user_order_id : Option Nat
  order_id : Option Nat
  reduce_only : Option Bool
  oracle_price_offset : Option Decimal
  max_ts : Option Int
deriving DecidableEq, Repr

/-- The drift `ModifyOrderParams` fields that `ModifyOrder::to_order_params`
sets (the rest come from `..Default::default()`). -/
structure ModifyOrderParams where
  base_asset_amount : Option Nat
  direction : Option PositionDirection
  price : Option Nat
  reduce_only : Option Bool
  oracle_price_offset : Option Int
  max_ts : Option Int
deriving DecidableEq, Repr

/-- `ModifyOrder::to_order_params` (types.rs). -/
def ModifyOrder.to_order_params (m : ModifyOrder) (base_decimals : Nat) : ModifyOrderParams :=
  let target_scale := u32wrap (10 ^ base_decimals)
  let ad : Option (Nat × PositionDirection) := m.amount.map (fun a =>
    (scale_decimal_to_u64 a.abs target_scale,
     if a.isSignNegative then .Short else .Long))
  { base_asset_amount := ad.map Prod.fst
    direction := ad.map Prod.snd
    price := m.price.map (fun p => scale_decimal_to_u64 p PRICE_PRECISION)
    reduce_only := m.reduce_only
    oracle_price_offset :=
      m.oracle_price_offset.map (fun p => i32wrap (scale_decimal_to_i64 p PRICE_PRECISION))
    max_ts := m.max_ts }

/-- Gateway `CancelOrdersRequest` (types.rs). -/
structure CancelOrdersRequest where
  market : Option Market
  ids : Option (List Nat)
  user_ids : Option (List Nat)
deriving DecidableEq, Repr

/-- `ControllerError` (controller.rs). `Sdk` carries the SDK error's display
string; `TxFailed` carries the anchor error name and code. -/
inductive ControllerError
  | Sdk (msg : String)
  | BadRequest (msg : String)
  | TxFailed (reason : String) (code : Nat)
  | TxNotFound (tx_sig : String)
deriving DecidableEq, Repr

/-- The cancel instruction appended to the transaction builder by
`build_cancel_ix`: which of the four cancel entry points was called and with
which arguments. -/
inductive CancelIx
  | byMarket (market_index : Nat) (market_type : MarketType)
  | byUserIds (user_ids : List Nat)
  | byIds (ids : List Nat)
  | all
deriving DecidableEq, Repr

/-- `build_cancel_ix` (controller.rs): the if/else-if chain over the request
keys. -/
def build_cancel_ix (req : CancelOrdersRequest) : Except ControllerError CancelIx :=
  match req.market with
  | some market => .ok (.byMarket market.market_index market.market_type)
  | none =>
    match req.user_ids with
    | some user_ids =>
      if user_ids.isEmpty then .error (.BadRequest "user ids cannot be empty")
      else .ok (.byUserIds user_ids)
    | none =>
      match req.ids with
      | some ids =>
        if ids.isEmpty then .error (.BadRequest "ids cannot be empty")
        else .ok (.byIds ids)
      | none => .ok .all

/-- The modify instruction appended by `build_modify_ix`; `empty` is the
early return for an empty batch (builder unchanged). -/
inductive ModifyIx
  | byUserIds (params : List (Nat × ModifyOrderParams))
  | byIds (params : List (Nat × ModifyOrderParams))
  | empty
deriving DecidableEq, Repr

/-- The batch-addressing test of `build_modify_ix` (controller.rs):
`req.orders[0].user_order_id.is_some_and(|x| x > 0)`. -/
def modifyByUserMode (o : ModifyOrder) : Bool :=
  match o.user_order_id with
  | some x => decide (0 < x)
  | none => false

/-- The `by_user_order_ids` loop of `build_modify_ix`: for each order the
market decimals are computed first (panicking, `none`, on an unknown spot
market), then a missing `user_order_id` fails the whole batch. The value of
a present `user_order_id` is not inspected. -/
def modifyCollectByUserId (pd : ProgramData) :
    List ModifyOrder → Option (Except ControllerError (List (Nat × ModifyOrderParams)))
  | [] => some (.ok [])
  | o :: rest =>
    match get_market_decimals pd o.market with
    | none => none
    | some d =>
      match o.user_order_id with
      | none => some (.error (.BadRequest "userOrderId not set"))
      | some uid =>
        match modifyCollectByUserId pd rest with
        | none => none
        | some (.error e) => some (.error e)
        | some (.ok ps) => some (.ok ((uid, o.to_order_params d) :: ps))

/-- The global-order-id loop of `build_modify_ix`: same shape, requiring
`order_id` on every order. -/
def modifyCollectById (pd : ProgramData) :
    List ModifyOrder → Option (Except ControllerError (List (Nat × ModifyOrderParams)))
  | [] => some (.ok [])
  | o :: rest =>
    match get_market_decimals pd o.market with
    | none => none
    | some d =>
      match o.order_id with
      | none => some (.error (.BadRequest "orderId not set"))
      | some oid =>
        match modifyCollectById pd rest with
        | none => none
        | some (.error e) => some (.error e)
        | some (.ok ps) => some (.ok ((oid, o.to_order_params d) :: ps))

/-- `build_modify_ix` (controller.rs). Outer `none` models a panic inside the
loop; the addressing mode is chosen from the first order only. -/
def build_modify_ix (pd : ProgramData) (orders : List ModifyOrder) :
    Option (Except ControllerError ModifyIx) :=
  match orders with
  | [] => some (.ok .empty)
  | first :: _ =>
    if modifyByUserMode first then
      match modifyCollectByUserId pd orders with
      | none => none
      | some (.error e) => some (.error e)
      | some (.ok ps) => some (.ok (.byUserIds ps))
    else
      match modifyCollectById pd orders with
      | none => none
      | some (.error e) => some (.error e)
      | some (.ok ps) => some (.ok (.byIds ps))

/-- Marker that `AppState::send_tx` was reached with a built instruction. -/
inductive TxAction
  | sent (ix : ModifyIx)
deriving DecidableEq, Repr

/-- `AppState::modify_orders` (controller.rs): builds the modify instruction
and only on success proceeds to `send_tx` (the `?` operator returns the
`BadRequest` first). -/
def modify_orders (pd : ProgramData) (orders : List ModifyOrder) :
    Option (Except ControllerError TxAction) :=
  match build_modify_ix pd orders with
  | none => none
  | some (.error e) => some (.error e)
  | some (.ok ix) => some (.ok (.sent ix))

/-- The order-translation loop of `AppState::place_orders` (controller.rs):
each order's market decimals are fetched from the cache
(`get_market_decimals`, which panics on an unknown spot market) and the
order is converted to `OrderParams`. -/
def place_orders_build (pd : ProgramData) : List PlaceOrder → Option (List OrderParams)
  | [] => some []
  | o :: rest =>
    match get_market_decimals pd o.market with
    | none => none
    | some d =>
      match place_orders_build pd rest with
      | none => none
      | some ps => some (o.to_order_params d :: ps)

/-- `AppState::place_orders` up to the hand-off to `send_tx`: there is no
error path for an unknown market, only the panic (`none`). -/
def place_orders (pd : ProgramData) (orders : List PlaceOrder) :
    Option (Except ControllerError (List OrderParams)) :=
  match place_orders_build pd orders with
  | none => none
  | some ps => some (.ok ps)

/-- The SDK error surface `send_tx` inspects: a display string and the
optional anchor program-error `(code, name)` extracted by
`to_anchor_error_code`. -/
structure SdkErr where
  msg : String
  anchor : Option (Nat × String)
deriving DecidableEq, Repr

/-- `handle_tx_err` (controller.rs): an anchor program error becomes
`TxFailed { reason: code.name(), code }`, anything else stays an `Sdk`
error. -/
def handle_tx_err (e : SdkErr) : ControllerError :=
  match e.anchor with
  | some (code, name) => .TxFailed name code
  | none => .Sdk e.msg

/-- The `RpcSendTransactionConfig` fields set by `send_tx`. -/
structure TxConfig where
  max_retries : Option Nat
  preflight_commitment : Option String
  skip_preflight : Bool
deriving DecidableEq, Repr

/-- The transaction send config built in `send_tx` (controller.rs):
`max_retries: Some(0)`, preflight commitment from the configured tx
commitment, `skip_preflight` from the gateway flag. -/
def mkTxConfig (tx_commitment : String) (skip : Bool) : TxConfig :=
  { max_retries := some 0
    preflight_commitment := some tx_commitment
    skip_preflight := skip }

/-- `DEFAULT_TX_TTL` (controller.rs): seconds before the gateway stops
resubmitting and monitoring a tx. -/
def DEFAULT_TX_TTL : Nat := 6

/-- The detached confirmer task spawned by `send_tx`: the RPC endpoints each
broadcast round targets and the retry deadline in seconds. -/
structure ConfirmerTask where
  recipients : List String
  ttlSecs : Nat
deriving DecidableEq, Repr

/-- `AppState::send_tx` (controller.rs) after signing: the signed tx is
submitted once to the primary RPC; on failure `handle_tx_err` classifies the
error and no confirmer task is spawned; on success the signature is returned
and a detached confirmer task is spawned whose broadcast targets are the
extra RPCs plus the primary and whose deadline is the client `ttl` or
`DEFAULT_TX_TTL`. -/
def send_tx (primary : String) (extra_rpcs : List String)
    (primary_resp : Except SdkErr String) (ttl : Option Nat) :
    Except ControllerError String × Option ConfirmerTask :=
  match primary_resp with
  | .error e => (.error (handle_tx_err e), none)
  | .ok sig =>
    (.ok sig, some { recipients := extra_rpcs ++ [primary], ttlSecs := ttl.getD DEFAULT_TX_TTL })

/-- The confirmer loop of `send_tx`, driven by one observation per iteration:
the elapsed time at the loop head and the result of the signature-status
poll at the end of the iteration. Returns whether the tx was confirmed and
how many broadcast rounds were performed (each round sends the same signed
bytes to every recipient of the task). -/
def runConfirmer (ttl : Nat) : List (Nat × Bool) → Bool × Nat
  | [] => (false, 0)
  | (elapsed, poll) :: rest =>
    if elapsed < ttl then
      if poll then (true, 1)
      else
        let r := runConfirmer ttl rest
        (r.1, r.2 + 1)
    else (false, 0)

/-- `handle_result` (main.rs): the HTTP mapping of `ControllerError`, as the
status code and the `{code, reason}` body. -/
structure ErrorBody where
  code : Nat
  reason : String
deriving DecidableEq, Repr

/-- `handle_result` (main.rs). -/
def handle_result {α : Type} : Except ControllerError α → Except (Nat × ErrorBody) α
  | .ok v => .ok v
  | .error (.Sdk msg) => .error (500, ⟨500, msg⟩)
  | .error (.TxFailed reason code) => .error (400, ⟨code, reason⟩)
  | .error (.BadRequest reason) => .error (400, ⟨400, reason⟩)
  | .error (.TxNotFound tx_sig) => .error (404, ⟨404, "tx not found: " ++ tx_sig⟩)

/-- The drift SDK order account layout (`drift_rs::types::Order`), with the
fields the gateway reads. `price`, `base_asset_amount`,
`base_asset_amount_filled` and `trigger_price` are `u64`;
`auction_start_price`, `auction_end_price` and `max_ts` are `i64`;
`oracle_price_offset` is `i32`. -/
structure SdkOrder where
  slot : Nat
  price : Nat
  base_asset_amount : Nat
  base_asset_amount_filled : Nat
  trigger_price : Nat
  auction_start_price : Int
  auction_end_price : Int
  max_ts : Int
  oracle_price_offset : Int
  order_id : Nat
  market_index : Nat
  order_type : OrderType
  market_type : MarketType
  user_order_id : Nat
  direction : PositionDirection
  reduce_only : Bool
  post_only : Bool
  immediate_or_cancel : Bool
  auction_duration : Nat
deriving DecidableEq, Repr

/-- `value.direction as i64` (types.rs): `Long = 0`, `Short = 1`. -/
def directionNum : PositionDirection → Int
  | .Long => 0
  | .Short => 1

/-- The gateway `Order` presentation type (types.rs). -/
structure GatewayOrder where
  order_type : OrderType
  market_index : Nat
  market_type : MarketType
  amount : Decimal
  filled : Decimal
  price : Decimal
  post_only : Bool
  reduce_only : Bool
  user_order_id : Nat
  order_id : Nat
  immediate_or_cancel : Bool
  oracle_price_offset : Option Decimal
deriving DecidableEq, Repr

/-- `Order::from_sdk_order` (types.rs). `value.base_asset_amount as i64 *
to_sign` is `i64` arithmetic, hence the wraps; `Decimal::new` panics when
`base_decimals > 28`. -/
def GatewayOrder.from_sdk_order (value : SdkOrder) (base_decimals : Nat) :
    Option GatewayOrder :=
  match Decimal.new? (i64wrap value.price) PRICE_DECIMALS,
      Decimal.new?
        (i64wrap (i64wrap value.base_asset_amount * (1 - 2 * directionNum value.direction)))
        base_decimals,
      Decimal.new? (i64wrap value.base_asset_amount_filled) base_decimals with
  | some price, some amount, some filled =>
    some
    { market_index := value.market_index
      market_type := value.market_type
      price := price
      amount := amount
      filled := filled
      immediate_or_cancel := value.immediate_or_cancel
      reduce_only := value.reduce_only
      order_type := value.order_type
      order_id := value.order_id
      post_only := value.post_only
      user_order_id := value.user_order_id
      oracle_price_offset :=
        if value.oracle_price_offset = 0 then none
        else some (Decimal.ofInt value.oracle_price_offset PRICE_DECIMALS) }
  | _, _, _ => none

/-- serde `skip_serializing_if = "Option::is_none"` on
`Order.oracle_price_offset` (types.rs): the JSON field appears in a
`GET /orders` response iff the option is `some`. -/
def GatewayOrder.rendersOraclePriceOffset (o : GatewayOrder) : Bool :=
  o.oracle_price_offset.isSome

/-- Ws `Channel` (websocket.rs). -/
inductive Channel
  | Fills
  | Orders
  | Funding
deriving DecidableEq, Repr

/-- Ws fill side (websocket.rs). -/
inductive Side
  | Buy
  | Sell
deriving DecidableEq, Repr

/-- `if let PositionDirection::Long = side { Side::Buy } else { Side::Sell }`
(websocket.rs). -/
def sideOf : PositionDirection → Side
  | .Long => .Buy
  | .Short => .Sell

/-- Payload of `AccountEvent::Fill` (websocket.rs). The `price` field is the
decimal quotient `quote/base`; rust_decimal division rounds to at most 28
significant digits, which no claim depends on, so it is modelled as the
exact rational value. -/
structure FillData where
  side : Side
  fee : Decimal
  amount : Decimal
  price : Rat
  oracle_price : Decimal
  order_id : Nat
  market_index : Nat
  market_type : MarketType
  ts : Nat
  tx_idx : Nat
  signature : String
  maker : Option String
  maker_order_id : Option Nat
  maker_fee : Option Decimal
  taker : Option String
  taker_order_id : Option Nat
  taker_fee : Option Decimal
deriving DecidableEq, Repr

/-- `OrderWithDecimals` (websocket.rs). -/
structure OrderWithDecimals where
  slot : Nat
  price : Decimal
  amount : Decimal
  filled : Decimal
  trigger_price : Decimal
  auction_start_price : Decimal
  auction_end_price : Decimal
  max_ts : Int
  oracle_price_offset : Decimal
  order_id : Nat
  market_index : Nat
  order_type : OrderType
  market_type : MarketType
  user_order_id : Nat
  direction : PositionDirection
  reduce_only : Bool
  post_only : Bool
  immediate_or_cancel : Bool
  auction_duration : Nat
deriving DecidableEq, Repr

/-- `OrderWithDecimals::from_order` (websocket.rs). `Decimal::new` panics
(`none`) when `decimals > 28`. -/
def OrderWithDecimals.from_order (value : SdkOrder) (decimals : Nat) :
    Option OrderWithDecimals :=
  match Decimal.new? (i64wrap value.base_asset_amount) decimals,
      Decimal.new? (i64wrap value.base_asset_amount_filled) decimals with
  | some amount, some filled =>
    some
    { slot := value.slot
      price := (Decimal.ofInt (i64wrap value.price) PRICE_DECIMALS).normalize
      amount := amount.normalize
      filled := filled.normalize
      trigger_price := (Decimal.ofInt (i64wrap value.trigger_price) PRICE_DECIMALS).normalize
      auction_start_price := (Decimal.ofInt value.auction_start_price PRICE_DECIMALS).normalize
      auction_end_price := (Decimal.ofInt value.auction_end_price PRICE_DECIMALS).normalize
      oracle_price_offset := (Decimal.ofInt value.oracle_price_offset PRICE_DECIMALS).normalize
      max_ts := value.max_ts
      order_id := value.order_id
      market_index := value.market_index
      order_type := value.order_type
      market_type := value.market_type
      user_order_id := value.user_order_id
      direction := value.direction
      reduce_only := value.reduce_only
      post_only := value.post_only
      immediate_or_cancel := value.immediate_or_cancel
      auction_duration := value.auction_duration }
  | _, _ => none

/-- `AccountEvent` (websocket.rs). -/
inductive AccountEvent
  | Fill (data : FillData)
  | OrderCreate (order : OrderWithDecimals) (ts : Nat) (signature : String) (tx_idx : Nat)
  | OrderCancel (order_id : Nat) (ts : Nat) (signature : String) (tx_idx : Nat)
  | OrderCancelMissing (user_order_id : Nat) (order_id : Nat) (signature : String)
  | OrderExpire (order_id : Nat) (fee : Decimal) (ts : Nat) (signature : String)
  | FundingPayment (amount : Decimal) (market_index : Nat) (ts : Nat) (signature : String)
      (tx_idx : Nat)
deriving DecidableEq, Repr

/-- `AccountEvent::fill` (websocket.rs). Panics (`none`) when
`Decimal::new(base_amount as i64, decimals)` has `decimals > 28`, when the
price division `Decimal::new(quote, PRICE_DECIMALS) / base` divides by the
zero decimal, or when that division overflows — rust_decimal's
"Division overflowed" panic, fired when the quotient's magnitude cannot fit
the 96-bit mantissa even at scale 0, modelled as `2 ^ 96 ≤ |quotient|` (the
rounding behaviour at that boundary is immaterial: the theorems below stay
at `decimals ≤ 15`, where a `u64` quote over a nonzero `u64` base keeps the
quotient at most `2 ^ 63 · 10 ^ 9 < 2 ^ 96`). -/
def AccountEvent.fill (side : PositionDirection) (fee : Int) (base_amount : Nat)
    (quote_amount : Nat) (oracle_price : Int) (order_id : Nat) (ts : Nat) (decimals : Nat)
    (signature : String) (tx_idx : Nat) (market_index : Nat) (market_type : MarketType)
    (maker : Option String) (maker_order_id : Option Nat) (maker_fee : Option Int)
    (taker : Option String) (taker_order_id : Option Nat) (taker_fee : Option Int) :
    Option AccountEvent :=
  match Decimal.new? (i64wrap base_amount) decimals with
  | none => none
  | some base_dec =>
    if base_dec.mabs = 0 then
      none
    else if 2 ^ 96 ≤
        |((i64wrap quote_amount : Rat) / (10 ^ PRICE_DECIMALS : Rat)) /
          ((i64wrap base_amount : Rat) / (10 ^ decimals : Rat))| then
      none
    else
      some (.Fill
      { side := sideOf side
        price := ((i64wrap quote_amount : Rat) / (10 ^ PRICE_DECIMALS : Rat)) /
          ((i64wrap base_amount : Rat) / (10 ^ decimals : Rat))
        oracle_price := (Decimal.ofInt oracle_price PRICE_DECIMALS).normalize
        fee := (Decimal.ofInt fee PRICE_DECIMALS).normalize
        order_id := order_id
        amount := base_dec.normalize
        ts := ts
        signature := signature
        market_index := market_index
        market_type := market_type
        tx_idx := tx_idx
        maker := maker
        maker_order_id := maker_order_id
        maker_fee := maker_fee.map (fun x => Decimal.ofInt x PRICE_DECIMALS)
        taker := taker
        taker_order_id := taker_order_id
        taker_fee := taker_fee.map (fun x => Decimal.ofInt x PRICE_DECIMALS) })

/-- `Pubkey::to_string` (sub-account pubkeys are modelled as naturals). -/
def pubkeyString (p : Nat) : String := toString p

/-- `DriftEvent` (the SDK's parsed log events), with the fields the gateway
reads. `maker_fee` is `i64`, `taker_fee` and `fee` are `u64`,
`funding amount` is `i64`. -/
inductive DriftEvent
  | OrderFill (maker : Option Nat) (maker_fee : Int) (maker_order_id : Nat)
      (maker_side : Option PositionDirection) (taker : Option Nat) (taker_fee : Nat)
      (taker_order_id : Nat) (taker_side : Option PositionDirection)
      (base_asset_amount_filled : Nat) (quote_asset_amount_filled : Nat)
      (oracle_price : Int) (market_index : Nat) (market_type : MarketType)
      (signature : String) (tx_idx : Nat) (ts : Nat)
  | OrderCancel (taker : Option Nat) (maker : Option Nat) (taker_order_id : Nat)
      (maker_order_id : Nat) (signature : String) (tx_idx : Nat) (ts : Nat)
  | OrderCancelMissing (order_id : Nat) (user_order_id : Nat) (signature : String)
  | OrderExpire (order_id : Nat) (fee : Nat) (ts : Nat) (signature : String)
  | OrderCreate (order : SdkOrder) (ts : Nat) (signature : String) (tx_idx : Nat)
  | FundingPayment (amount : Int) (market_index : Nat) (ts : Nat) (tx_idx : Nat)
      (signature : String)

/-- `map_drift_event_for_account` (websocket.rs). `none` models a panic:
the `expect("market exists")` inside `get_market_decimals`, the
`maker_side.unwrap()` / `taker_side.unwrap()`, and the panics inside
`AccountEvent::fill`. -/
def map_drift_event_for_account (pd : ProgramData) (event : DriftEvent) (sub : Nat) :
    Option (Channel × Option AccountEvent) :=
  match event with
  | .OrderFill maker maker_fee maker_order_id maker_side taker taker_fee taker_order_id
      taker_side base_asset_amount_filled quote_asset_amount_filled oracle_price
      market_index market_type signature tx_idx ts =>
    match get_market_decimals pd ⟨market_index, market_type⟩ with
    | none => none
    | some decimals =>
      if maker = some sub then
        match maker_side with
        | none => none
        | some side =>
          match AccountEvent.fill side maker_fee base_asset_amount_filled
              quote_asset_amount_filled oracle_price maker_order_id ts decimals signature
              tx_idx market_index market_type (maker.map pubkeyString) (some maker_order_id)
              (some maker_fee) (taker.map pubkeyString) (some taker_order_id)
              (some (i64wrap taker_fee)) with
          | none => none
          | some f => some (.Fills, some f)
      else if taker = some sub then
        match taker_side with
        | none => none
        | some side =>
          match AccountEvent.fill side (i64wrap taker_fee) base_asset_amount_filled
              quote_asset_amount_filled oracle_price taker_order_id ts decimals signature
              tx_idx market_index market_type (maker.map pubkeyString) (some maker_order_id)
              (some maker_fee) (taker.map pubkeyString) (some taker_order_id)
              (some (i64wrap taker_fee)) with
          | none => none
          | some f => some (.Fills, some f)
      else some (.Fills, none)
  | .OrderCancel _taker maker taker_order_id maker_order_id signature tx_idx ts =>
    let order_id := if maker = some sub then maker_order_id else taker_order_id
    some (.Orders, some (.OrderCancel order_id ts signature tx_idx))
  | .OrderCancelMissing order_id user_order_id signature =>
    some (.Orders, some (.OrderCancelMissing user_order_id order_id signature))
  | .OrderExpire order_id fee ts signature =>
    some (.Orders,
      some (.OrderExpire order_id
        (Decimal.ofInt (i64wrap (-(i64wrap fee))) PRICE_DECIMALS) ts signature))
  | .OrderCreate order ts signature tx_idx =>
    match get_market_decimals pd ⟨order.market_index, order.market_type⟩ with
    | none => none
    | some decimals =>
      match OrderWithDecimals.from_order order decimals with
      | none => none
      | some o => some (.Orders, some (.OrderCreate o ts signature tx_idx))
  | .FundingPayment amount market_index ts tx_idx signature =>
    some (.Funding,
      some (.FundingPayment ((Decimal.ofInt amount PRICE_DECIMALS).normalize)
        market_index ts signature tx_idx))

/-- The inputs on which `map_drift_event_for_account` provably does not
panic: known market decimals — at most 15 for a fill that matches the
subscriber, which keeps the price quotient inside the 96-bit decimal range
(at most 28, the scale bound, for an order create) — plus a present side and
a nonzero filled base amount on the leg matching the subscriber. -/
def map_total_conditions (pd : ProgramData) (e : DriftEvent) (sub : Nat) : Prop :=
  match e with
  | .OrderFill maker _ _ maker_side taker _ _ taker_side base _ _ market_index market_type
      _ _ _ =>
    (∃ dec, get_market_decimals pd ⟨market_index, market_type⟩ = some dec ∧
      ((maker = some sub ∨ taker = some sub) → dec ≤ 15))
    ∧ ((maker = some sub ∨ taker = some sub) →
        0 < base ∧ base < 2 ^ 64
        ∧ (maker = some sub → maker_side.isSome)
        ∧ (maker ≠ some sub → taker = some sub → taker_side.isSome))
  | .OrderCreate order _ _ _ =>
    ∃ dec, get_market_decimals pd ⟨order.market_index, order.market_type⟩ = some dec ∧ dec ≤ 28
  | _ => True

/-- A program-data cache holding a single spot market (index 0, 6 decimals),
as the gateway would for a USDC-style quote market. -/
def pdStd : ProgramData := ⟨fun i => if i = 0 then some 6 else none⟩

/-- Concrete request of spec scenario 2: `price = "1.23"`,
`oraclePriceOffset = "-0.5"`, limit order on perp market 0. -/
def placeOrderEx : PlaceOrder :=
  { market := Market.perp 0
    amount := ⟨false, 0, 0⟩
    price := ⟨false, 123, 2⟩
    user_order_id := 0
    order_type := .Limit
    post_only := false
    reduce_only := false
    oracle_price_offset := some ⟨true, 5, 1⟩
    max_ts := none }

/-- A modify intent addressing by `user_order_id = 7` on perp market 0. -/
def modifyEx1 : ModifyOrder :=
  { market := Market.perp 0
    amount := none
    price := none
    user_order_id := some 7
    order_id := none
    reduce_only := none
    oracle_price_offset := none
    max_ts := none }

/-- A modify intent carrying `user_order_id = 0` (present but zero). -/
def modifyEx2 : ModifyOrder := { modifyEx1 with user_order_id := some 0 }

/-- A modify intent carrying `user_order_id = 2`. -/
def modifyEx3 : ModifyOrder := { modifyEx1 with user_order_id := some 2 }

/-- A cancel request with all three addressing keys set. -/
def cancelReqEx : CancelOrdersRequest :=
  { market := some (Market.perp 2), ids := some [4], user_ids := some [3] }

/-- An SDK error that carries an anchor program-error code. -/
def sdkErrEx : SdkErr := ⟨"custom program error: 0x1773", some (6003, "InvalidOrderAuction")⟩

/-- A raw fill whose maker is sub-account 1 but whose filled base amount is
zero. -/
def fillEvZeroBase : DriftEvent :=
  .OrderFill (some 1) 0 7 (some .Long) (some 2) 0 9 (some .Short) 0 0 0 0 .Perp "sig" 0 0

/-- An SDK order on spot market index 7 (absent from `pdStd`). -/
def sdkOrderSpot7 : SdkOrder :=
  { slot := 0
    price := 0
    base_asset_amount := 0
    base_asset_amount_filled := 0
    trigger_price := 0
    auction_start_price := 0
    auction_end_price := 0
    max_ts := 0
    oracle_price_offset := 0
    order_id := 1
    market_index := 7
    order_type := .Limit
    market_type := .Spot
    user_order_id := 0
    direction := .Long
    reduce_only := false
    post_only := false
    immediate_or_cancel := false
    auction_duration := 0 }

/-- An SDK order on perp market 0 with a zero raw oracle price offset. -/
def sdkOrderZeroOffset : SdkOrder := { sdkOrderSpot7 with market_index := 0, market_type := .Perp }

/-- An SDK order on perp market 0 with raw oracle price offset `-500000`. -/
def sdkOrderNegOffset : SdkOrder := { sdkOrderZeroOffset with oracle_price_offset := -500000 }

/-- A place intent on spot market 99, which no cache in this file knows. -/
def spotPlaceOrder99 : PlaceOrder :=
  { market := Market.spot 99
    amount := ⟨false, 1, 0⟩
    price := ⟨false, 1, 0⟩
    user_order_id := 0
    order_type := .Limit
    post_only := false
    reduce_only := false
    oracle_price_offset := none
    max_ts := none }

/-- A place intent on spot market 5, also unknown to `pdStd`. -/
def spotPlaceOrder5 : PlaceOrder := { spotPlaceOrder99 with market := Market.spot 5 }

theorem i64wrap_eq_of_bounds (v : Int) (h1 : -(2 ^ 63) ≤ v) (h2 : v < 2 ^ 63) :
    i64wrap v = v := by
  unfold i64wrap
  omega

theorem i64wrap_natCast_ne_zero (b : Nat) (h0 : 0 < b) (h64 : b < 2 ^ 64) :
    i64wrap (b : Int) ≠ 0 := by
  unfold i64wrap
  omega

theorem u32wrap_pow10 (d : Nat) (hd : d ≤ 9) : u32wrap (10 ^ d) = 10 ^ d := by
  unfold u32wrap
  apply Nat.mod_eq_of_lt
  calc 10 ^ d ≤ 10 ^ 9 := Nat.pow_le_pow_right (by norm_num) hd
    _ < 2 ^ 32 := by norm_num

/-- Claim C1: `PlaceOrder::to_order_params` with base decimals `d` (for any
real market, `d ≤ 9`, so the `u32` target scale `10 ^ d` does not wrap)
scales the absolute amount by `10 ^ d`, derives the direction from the sign
of `amount` (`Short` iff the decimal's sign is negative), sends
`price = scale(price, 10 ^ 6)` when `oracle_price_offset` is absent and
`price = 0` with `oracle_price_offset = scale_signed(offset, 10 ^ 6) as i32`
when it is present, and maps `post_only = true` to `MustPostOnly`, never
`TryPostOnly`. -/
theorem c1_place_order_translation (p : PlaceOrder) (d : Nat) (hd : d ≤ 9) :
    (p.to_order_params d).base_asset_amount = scale_decimal_to_u64 p.amount.abs (10 ^ d)
    ∧ ((p.to_order_params d).direction = .Short ↔ p.amount.isSignNegative = true)
    ∧ (p.oracle_price_offset = none →
        (p.to_order_params d).price = scale_decimal_to_u64 p.price (10 ^ 6)
        ∧ (p.to_order_params d).oracle_price_offset = none)
    ∧ (∀ off, p.oracle_price_offset = some off →
        (p.to_order_params d).price = 0
        ∧ (p.to_order_params d).oracle_price_offset =
            some (i32wrap (scale_decimal_to_i64 off (10 ^ 6))))
    ∧ ((p.to_order_params d).post_only = if p.post_only then .MustPostOnly else .None)
    ∧ (p.to_order_params d).post_only ≠ PostOnlyParam.TryPostOnly := by
  refine ⟨?_, ?_, ?_, ?_, ?_, ?_⟩
  · simp [PlaceOrder.to_order_params, u32wrap_pow10 d hd]
  · simp only [PlaceOrder.to_order_params]
    cases h : p.amount.isSignNegative <;> simp [h]
  · intro h
    simp [PlaceOrder.to_order_params, h, PRICE_PRECISION]
  · intro off h
    simp [PlaceOrder.to_order_params, h, PRICE_PRECISION]
  · simp [PlaceOrder.to_order_params]
  · simp only [PlaceOrder.to_order_params]
    cases h : p.post_only <;> simp [h]

/-- Claim C1 witness: spec scenario 2, `price = "1.23"`,
`oraclePriceOffset = "-0.5"` yields `price = 0` and
`oracle_price_offset = -500000`. -/
theorem c1_place_order_translation_witness :
    (placeOrderEx.to_order_params 9).price = 0
    ∧ (placeOrderEx.to_order_params 9).oracle_price_offset = some (-500000) := by
  have h := c1_place_order_translation placeOrderEx 9 (by norm_num)
  obtain ⟨hp, ho⟩ := h.2.2.2.1 ⟨true, 5, 1⟩ rfl
  refine ⟨hp, ho.trans ?_⟩
  decide

/-- Claim C2 counterexample: at the representable decimal with mantissa
`2 ^ 96 - 1` and scale 0, scaling to target 10 does not equal the exact
floor `⌊|mantissa| · 10 / 10 ^ 0⌋` — the `as u64` cast discards the high
bits. -/
theorem c2_scale_counterexample :
    Decimal.Wf ⟨false, 2 ^ 96 - 1, 0⟩
    ∧ scale_decimal_to_u64 ⟨false, 2 ^ 96 - 1, 0⟩ 10 ≠ ((2 ^ 96 - 1) * 10) / 10 ^ 0 := by
  constructor
  · decide
  · decide

theorem i128wrap_eq_of_bounds (v : Int) (h1 : -(2 ^ 127) ≤ v) (h2 : v < 2 ^ 127) :
    i128wrap v = v := by
  unfold i128wrap
  omega

theorem tdiv_natCast (a b : Nat) : Int.tdiv (a : Int) (b : Int) = ((a / b : Nat) : Int) := by
  exact_mod_cast (Int.ofNat_tdiv a b).symm

theorem tdiv_neg_natCast (a b : Nat) :
    Int.tdiv (-(a : Int)) (b : Int) = -((a / b : Nat) : Int) := by
  rw [Int.neg_tdiv, tdiv_natCast]

theorem scale_i64_eval (x : Decimal) (t : Nat) (hm : x.mabs * t < 2 ^ 127)
    (h : x.mabs * t / 10 ^ x.scale < 2 ^ 63) :
    scale_decimal_to_i64 x t =
      if x.negative then -((x.mabs * t / 10 ^ x.scale : Nat) : Int)
      else ((x.mabs * t / 10 ^ x.scale : Nat) : Int) := by
  have hcast : ((10 : Int) ^ x.scale) = ((10 ^ x.scale : Nat) : Int) := by
    push_cast
    ring
  have hlt : ((x.mabs * t : Nat) : Int) < 2 ^ 127 := by exact_mod_cast hm
  have hdivlt : ((x.mabs * t / 10 ^ x.scale : Nat) : Int) < 2 ^ 63 := by exact_mod_cast h
  have hdivge : (0 : Int) ≤ ((x.mabs * t / 10 ^ x.scale : Nat) : Int) := Int.natCast_nonneg _
  have hprodge : (0 : Int) ≤ ((x.mabs * t : Nat) : Int) := Int.natCast_nonneg _
  unfold scale_decimal_to_i64 Decimal.mantissa
  cases hneg : x.negative
  · simp only [Bool.false_eq_true, if_false]
    rw [show ((x.mabs : Int)) * (t : Int) = ((x.mabs * t : Nat) : Int) by push_cast; ring]
    rw [i128wrap_eq_of_bounds _ (le_trans (by norm_num) hprodge) hlt, hcast, tdiv_natCast]
    exact i64wrap_eq_of_bounds _ (le_trans (by norm_num) hdivge) hdivlt
  · simp only [if_true]
    rw [show (-(x.mabs : Int)) * (t : Int) = -((x.mabs * t : Nat) : Int) by push_cast; ring]
    rw [i128wrap_eq_of_bounds _ (by linarith) (by linarith), hcast, tdiv_neg_natCast]
    exact i64wrap_eq_of_bounds _ (by linarith) (by linarith)

/-- Claim C2 (amended): `scale_decimal_to_u64 x t` equals
`⌊|mantissa(x)| · t / 10 ^ scale(x)⌋` reduced modulo `2 ^ 64` — truncating,
never rounding up — and equals the exact floor whenever that floor is below
`2 ^ 64`; `scale_decimal_to_i64` has the same absolute-value rule and
preserves the sign of `x` whenever the `i128` product `|mantissa(x)| · t` is
below `2 ^ 127` and the floor is below `2 ^ 63`; beyond those bounds the
`i128` multiplication and the final integer casts wrap. -/
theorem c2_scale_truncation (x : Decimal) (t : Nat) :
    x.mantissa.natAbs = x.mabs
    ∧ scale_decimal_to_u64 x t = (x.mabs * t / 10 ^ x.scale) % 2 ^ 64
    ∧ (x.mabs * t / 10 ^ x.scale < 2 ^ 64 →
        scale_decimal_to_u64 x t = x.mabs * t / 10 ^ x.scale)
    ∧ (x.mabs * t < 2 ^ 127 → x.mabs * t / 10 ^ x.scale < 2 ^ 63 →
        scale_decimal_to_i64 x t =
          if x.negative then -((x.mabs * t / 10 ^ x.scale : Nat) : Int)
          else ((x.mabs * t / 10 ^ x.scale : Nat) : Int))
    ∧ (x.mabs * t < 2 ^ 127 → x.mabs * t / 10 ^ x.scale < 2 ^ 63 →
        (scale_decimal_to_i64 x t).natAbs = x.mabs * t / 10 ^ x.scale
        ∧ (x.negative = false → 0 ≤ scale_decimal_to_i64 x t)
        ∧ (x.negative = true → scale_decimal_to_i64 x t ≤ 0)) := by
  refine ⟨?_, rfl, ?_, ?_, ?_⟩
  · unfold Decimal.mantissa
    cases h : x.negative <;> simp
  · intro h
    exact Nat.mod_eq_of_lt h
  · intro hm h
    exact scale_i64_eval x t hm h
  · intro hm h
    rw [scale_i64_eval x t hm h]
    cases hneg : x.negative
    · simp only [Bool.false_eq_true, if_false]
      exact ⟨Int.natAbs_ofNat _, fun _ => Int.natCast_nonneg _,
        fun hh => absurd hh (by decide)⟩
    · simp only [if_true]
      refine ⟨?_, fun hh => absurd hh (by decide),
        fun _ => neg_nonpos_of_nonneg (Int.natCast_nonneg _)⟩
      rw [Int.natAbs_neg]
      exact Int.natAbs_ofNat _

/-- Claim C2 witness: `x = -12.3456`, target `10 ^ 9`: the unsigned scaling
gives `12345600000` and the signed scaling gives `-12345600000` (the product
`123456 · 10 ^ 9` is far below `2 ^ 127`, so nothing wraps). -/
theorem c2_scale_truncation_witness :
    scale_decimal_to_u64 ⟨true, 123456, 4⟩ (10 ^ 9) = 12345600000
    ∧ scale_decimal_to_i64 ⟨true, 123456, 4⟩ (10 ^ 9) = -12345600000 := by
  have h := c2_scale_truncation ⟨true, 123456, 4⟩ (10 ^ 9)
  constructor
  · exact (h.2.2.1 (by decide)).trans (by decide)
  · exact (h.2.2.2.1 (by decide) (by decide)).trans (by decide)

/-- Claim C3: `build_cancel_ix` selects the cancel mode by strict priority
`market` > `user_ids` > `ids` > cancel-all; any keys below the chosen one
are ignored, and a present-but-empty `user_ids` or `ids` list (when no
higher-priority key applies) is a `BadRequest` instead of an instruction. -/
theorem c3_cancel_priority (req : CancelOrdersRequest) :
    (∀ m, req.market = some m →
        build_cancel_ix req = .ok (.byMarket m.market_index m.market_type))
    ∧ (req.market = none → ∀ uids, req.user_ids = some uids →
        (uids = [] → build_cancel_ix req = .error (.BadRequest "user ids cannot be empty"))
        ∧ (uids ≠ [] → build_cancel_ix req = .ok (.byUserIds uids)))
    ∧ (req.market = none → req.user_ids = none → ∀ ids, req.ids = some ids →
        (ids = [] → build_cancel_ix req = .error (.BadRequest "ids cannot be empty"))
        ∧ (ids ≠ [] → build_cancel_ix req = .ok (.byIds ids)))
    ∧ (req.market = none → req.user_ids = none → req.ids = none →
        build_cancel_ix req = .ok .all) := by
  obtain ⟨mk, ids, uids⟩ := req
  refine ⟨?_, ?_, ?_, ?_⟩
  · intro m hm
    subst hm
    rfl
  · intro hmk l hl
    subst hmk hl
    constructor
    · intro he
      subst he
      rfl
    · intro hne
      simp [build_cancel_ix, List.isEmpty_iff, hne]
  · intro hmk hu l hl
    subst hmk hu hl
    constructor
    · intro he
      subst he
      rfl
    · intro hne
      simp [build_cancel_ix, List.isEmpty_iff, hne]
  · intro hmk hu hi
    subst hmk hu hi
    rfl

/-- Claim C3 witness: with `market`, `user_ids` and `ids` all present, the
instruction cancels by market and the id lists are ignored. -/
theorem c3_cancel_priority_witness :
    build_cancel_ix cancelReqEx = .ok (.byMarket 2 .Perp) := by
  exact (c3_cancel_priority cancelReqEx).1 (Market.perp 2) rfl

theorem modifyCollectByUserId_all_present (pd : ProgramData) (l : List ModifyOrder)
    (hm : ∀ o ∈ l, (get_market_decimals pd o.market).isSome)
    (hall : ∀ o ∈ l, o.user_order_id.isSome) :
    ∃ ps, modifyCollectByUserId pd l = some (.ok ps) := by
  induction l with
  | nil => exact ⟨[], rfl⟩
  | cons o rest ih =>
    obtain ⟨d, hd⟩ := Option.isSome_iff_exists.mp (hm o (List.mem_cons_self o rest))
    obtain ⟨uid, huid⟩ := Option.isSome_iff_exists.mp (hall o (List.mem_cons_self o rest))
    obtain ⟨ps, hps⟩ := ih (fun x hx => hm x (List.mem_cons_of_mem _ hx))
      (fun x hx => hall x (List.mem_cons_of_mem _ hx))
    refine ⟨(uid, o.to_order_params d) :: ps, ?_⟩
    simp [modifyCollectByUserId, hd, huid, hps]

theorem modifyCollectByUserId_missing (pd : ProgramData) (l : List ModifyOrder)
    (hm : ∀ o ∈ l, (get_market_decimals pd o.market).isSome)
    (hmiss : ∃ o ∈ l, o.user_order_id = none) :
    modifyCollectByUserId pd l = some (.error (.BadRequest "userOrderId not set")) := by
  induction l with
  | nil => simp at hmiss
  | cons o rest ih =>
    obtain ⟨d, hd⟩ := Option.isSome_iff_exists.mp (hm o (List.mem_cons_self o rest))
    cases huid : o.user_order_id with
    | none => simp [modifyCollectByUserId, hd, huid]
    | some uid =>
      have hmiss' : ∃ x ∈ rest, x.user_order_id = none := by
        obtain ⟨x, hx, hn⟩ := hmiss
        rcases List.mem_cons.mp hx with h | h
        · subst h
          rw [huid] at hn
          cases hn
        · exact ⟨x, h, hn⟩
      have hrest := ih (fun x hx => hm x (List.mem_cons_of_mem _ hx)) hmiss'
      simp [modifyCollectByUserId, hd, huid, hrest]

theorem modifyCollectById_all_present (pd : ProgramData) (l : List ModifyOrder)
    (hm : ∀ o ∈ l, (get_market_decimals pd o.market).isSome)
    (hall : ∀ o ∈ l, o.order_id.isSome) :
    ∃ ps, modifyCollectById pd l = some (.ok ps) := by
  induction l with
  | nil => exact ⟨[], rfl⟩
  | cons o rest ih =>
    obtain ⟨d, hd⟩ := Option.isSome_iff_exists.mp (hm o (List.mem_cons_self o rest))
    obtain ⟨oid, hoid⟩ := Option.isSome_iff_exists.mp (hall o (List.mem_cons_self o rest))
    obtain ⟨ps, hps⟩ := ih (fun x hx => hm x (List.mem_cons_of_mem _ hx))
      (fun x hx => hall x (List.mem_cons_of_mem _ hx))
    refine ⟨(oid, o.to_order_params d) :: ps, ?_⟩
    simp [modifyCollectById, hd, hoid, hps]

theorem modifyCollectById_missing (pd : ProgramData) (l : List ModifyOrder)
    (hm : ∀ o ∈ l, (get_market_decimals pd o.market).isSome)
    (hmiss : ∃ o ∈ l, o.order_id = none) :
    modifyCollectById pd l = some (.error (.BadRequest "orderId not set")) := by
  induction l with
  | nil => simp at hmiss
  | cons o rest ih =>
    obtain ⟨d, hd⟩ := Option.isSome_iff_exists.mp (hm o (List.mem_cons_self o rest))
    cases hoid : o.order_id with
    | none => simp [modifyCollectById, hd, hoid]
    | some oid =>
      have hmiss' : ∃ x ∈ rest, x.order_id = none := by
        obtain ⟨x, hx, hn⟩ := hmiss
        rcases List.mem_cons.mp hx with h | h
        · subst h
          rw [hoid] at hn
          cases hn
        · exact ⟨x, h, hn⟩
      have hrest := ih (fun x hx => hm x (List.mem_cons_of_mem _ hx)) hmiss'
      simp [modifyCollectById, hd, hoid, hrest]

/-- Claim C4 counterexample: a batch whose first intent has
`user_order_id = 7` and whose second intent carries `user_order_id = 0`
(present but zero) is accepted and a transaction is sent — the loop only
checks that the id is present, so the claimed "nonzero user_order_id on
every intent" requirement does not hold. -/
theorem c4_modify_batch_counterexample :
    modifyEx2.user_order_id = some 0
    ∧ modify_orders pdStd [modifyEx1, modifyEx2] =
        some (.ok (.sent (.byUserIds
          [(7, ⟨none, none, none, none, none, none⟩),
           (0, ⟨none, none, none, none, none, none⟩)]))) := ⟨rfl, rfl⟩

/-- Claim C4 (amended): for a non-empty modify batch over markets known to
the cache, the addressing mode is chosen from the first intent alone: if its
`user_order_id` is present and nonzero the whole batch is addressed by
user-assigned ids and every intent must carry a `user_order_id` — present
but not necessarily nonzero — otherwise the whole batch is addressed by
global ids and every intent must carry an `order_id`; a missing required id
fails the whole request with a `BadRequest` and `send_tx` is never
reached. -/
theorem c4_modify_batch (pd : ProgramData) (first : ModifyOrder) (rest : List ModifyOrder)
    (hm : ∀ o ∈ first :: rest, (get_market_decimals pd o.market).isSome) :
    (modifyByUserMode first = true →
        ((∀ o ∈ first :: rest, o.user_order_id.isSome) →
          ∃ ps, modify_orders pd (first :: rest) = some (.ok (.sent (.byUserIds ps))))
        ∧ ((∃ o ∈ first :: rest, o.user_order_id = none) →
          modify_orders pd (first :: rest) =
            some (.error (.BadRequest "userOrderId not set"))))
    ∧ (modifyByUserMode first = false →
        ((∀ o ∈ first :: rest, o.order_id.isSome) →
          ∃ ps, modify_orders pd (first :: rest) = some (.ok (.sent (.byIds ps))))
        ∧ ((∃ o ∈ first :: rest, o.order_id = none) →
          modify_orders pd (first :: rest) =
            some (.error (.BadRequest "orderId not set")))) := by
  constructor
  · intro hmode
    constructor
    · intro hall
      obtain ⟨ps, hps⟩ := modifyCollectByUserId_all_present pd (first :: rest) hm hall
      exact ⟨ps, by simp [modify_orders, build_modify_ix, hmode, hps]⟩
    · intro hmiss
      have hps := modifyCollectByUserId_missing pd (first :: rest) hm hmiss
      simp [modify_orders, build_modify_ix, hmode, hps]
  · intro hmode
    constructor
    · intro hall
      obtain ⟨ps, hps⟩ := modifyCollectById_all_present pd (first :: rest) hm hall
      exact ⟨ps, by simp [modify_orders, build_modify_ix, hmode, hps]⟩
    · intro hmiss
      have hps := modifyCollectById_missing pd (first :: rest) hm hmiss
      simp [modify_orders, build_modify_ix, hmode, hps]

/-- Claim C4 witness: a homogeneous user-order-id batch `[7, 2]` is accepted
and sent, and the same first intent with a follower missing its
`user_order_id` fails with `BadRequest` before `send_tx`. -/
theorem c4_modify_batch_witness :
    (∃ ps, modify_orders pdStd [modifyEx1, modifyEx3] = some (.ok (.sent (.byUserIds ps))))
    ∧ modify_orders pdStd [modifyEx1, { modifyEx1 with user_order_id := none }] =
        some (.error (.BadRequest "userOrderId not set")) := by
  constructor
  · exact ((c4_modify_batch pdStd modifyEx1 [modifyEx3] (by decide)).1 (by decide)).1 (by decide)
  · exact ((c4_modify_batch pdStd modifyEx1 [{ modifyEx1 with user_order_id := none }]
      (by decide)).1 (by decide)).2 ⟨{ modifyEx1 with user_order_id := none }, by decide, rfl⟩

/-- Claim C5: `send_tx` submits once to the primary RPC with
`max_retries = 0` (and the configured `skip_preflight`); a send failure
carrying an anchor program-error code terminates with `TxFailed{code,
reason}` — the reason being the anchor error's name — with no confirmer task
spawned; a successful send returns the signature and spawns a detached
confirmer whose broadcast targets are the extra RPCs plus the primary and
whose deadline is the client `ttl` or the 6-second default; each confirmer
iteration first checks the deadline (stopping, with no further broadcast,
once it has elapsed), otherwise re-broadcasts to every target and stops at
the first successful status poll. -/
theorem c5_send_tx_lifecycle (commitment : String) (skip : Bool) (primary : String)
    (extras : List String) (resp : Except SdkErr String) (ttl : Option Nat) :
    (mkTxConfig commitment skip).max_retries = some 0
    ∧ (mkTxConfig commitment skip).skip_preflight = skip
    ∧ (∀ e code name, resp = .error e → e.anchor = some (code, name) →
        send_tx primary extras resp ttl = (.error (.TxFailed name code), none))
    ∧ (∀ sig, resp = .ok sig →
        send_tx primary extras resp ttl =
          (.ok sig, some ⟨extras ++ [primary], ttl.getD DEFAULT_TX_TTL⟩))
    ∧ DEFAULT_TX_TTL = 6
    ∧ (∀ t elapsed poll obs, t ≤ elapsed →
        runConfirmer t ((elapsed, poll) :: obs) = (false, 0))
    ∧ (∀ t elapsed obs, elapsed < t →
        runConfirmer t ((elapsed, true) :: obs) = (true, 1))
    ∧ (∀ t elapsed obs, elapsed < t →
        runConfirmer t ((elapsed, false) :: obs) =
          ((runConfirmer t obs).1, (runConfirmer t obs).2 + 1)) := by
  refine ⟨rfl, rfl, ?_, ?_, rfl, ?_, ?_, ?_⟩
  · intro e code name hr ha
    subst hr
    simp [send_tx, handle_tx_err, ha]
  · intro sig hr
    subst hr
    rfl
  · intro t elapsed poll obs h
    simp [runConfirmer, Nat.not_lt.mpr h]
  · intro t elapsed obs h
    simp [runConfirmer, h]
  · intro t elapsed obs h
    simp [runConfirmer, h]

/-- Claim C5 witness: a primary send failing with anchor code 6003
(`InvalidOrderAuction`) yields `TxFailed` and no confirmer task; a
successful send with no client ttl spawns a confirmer over the extra RPC
plus the primary with the 6-second default; a confirmer iteration that
polls a confirmation inside the deadline stops after one broadcast round. -/
theorem c5_send_tx_lifecycle_witness :
    send_tx "primary" ["extra1"] (.error sdkErrEx) none =
      (.error (.TxFailed "InvalidOrderAuction" 6003), none)
    ∧ send_tx "primary" ["extra1"] (.ok "sig") none =
        (.ok "sig", some ⟨["extra1", "primary"], 6⟩)
    ∧ runConfirmer 6 [(0, true)] = (true, 1) := by
  have h := c5_send_tx_lifecycle "confirmed" false "primary" ["extra1"]
    (.error sdkErrEx) none
  have h2 := c5_send_tx_lifecycle "confirmed" false "primary" ["extra1"]
    (.ok "sig") none
  refine ⟨h.2.2.1 sdkErrEx 6003 "InvalidOrderAuction" rfl rfl, ?_, ?_⟩
  · exact (h2.2.2.2.1 "sig" rfl).trans (by rfl)
  · exact h.2.2.2.2.2.2.1 6 0 [] (by norm_num)

/-- Claim C9: `handle_result` maps every `ControllerError` totally and
exactly: `Sdk` to status 500 with body `{code: 500, reason}`, `TxFailed` to
status 400 with body `{code: <anchor code>, reason}`, `BadRequest` to status
400 with body `{code: 400, reason}`, `TxNotFound` to status 404 with body
`{code: 404, reason}`; every error response carries both a code and a
reason. -/
theorem c9_http_error_mapping :
    (∀ msg : String, handle_result (α := Unit) (.error (.Sdk msg)) = .error (500, ⟨500, msg⟩))
    ∧ (∀ (reason : String) (code : Nat),
        handle_result (α := Unit) (.error (.TxFailed reason code)) = .error (400, ⟨code, reason⟩))
    ∧ (∀ reason : String,
        handle_result (α := Unit) (.error (.BadRequest reason)) = .error (400, ⟨400, reason⟩))
    ∧ (∀ sig : String,
        handle_result (α := Unit) (.error (.TxNotFound sig)) =
          .error (404, ⟨404, "tx not found: " ++ sig⟩))
    ∧ (∀ e : ControllerError, ∃ status body,
        handle_result (α := Unit) (.error e) = .error (status, body)) := by
  refine ⟨fun _ => rfl, fun _ _ => rfl, fun _ => rfl, fun _ => rfl, ?_⟩
  intro e
  cases e <;> exact ⟨_, _, rfl⟩

theorem i64wrap_bounds (v : Int) : -(2 ^ 63) ≤ i64wrap v ∧ i64wrap v < 2 ^ 63 := by
  unfold i64wrap
  omega

theorem fill_price_in_range (quote base dec : Nat) (hdec : dec ≤ 15)
    (hb : i64wrap (base : Int) ≠ 0) :
    |((i64wrap (quote : Int) : Rat) / (10 ^ PRICE_DECIMALS : Rat)) /
      ((i64wrap (base : Int) : Rat) / (10 ^ dec : Rat))| < 2 ^ 96 := by
  obtain ⟨hq1, hq2⟩ := i64wrap_bounds (quote : Int)
  have hQ : |(i64wrap (quote : Int) : Rat)| ≤ 2 ^ 63 := by
    rw [← Int.cast_abs]
    have habs : |i64wrap (quote : Int)| ≤ 2 ^ 63 := abs_le.mpr ⟨hq1, le_of_lt hq2⟩
    exact_mod_cast habs
  have hB : (1 : Rat) ≤ |(i64wrap (base : Int) : Rat)| := by
    rw [← Int.cast_abs]
    have habs : (1 : Int) ≤ |i64wrap (base : Int)| := by
      rcases lt_trichotomy (i64wrap (base : Int)) 0 with h | h | h
      · rw [abs_of_neg h]
        omega
      · exact absurd h hb
      · rw [abs_of_pos h]
        omega
    exact_mod_cast habs
  have hBne : ((i64wrap (base : Int) : Rat)) ≠ 0 := by exact_mod_cast hb
  have hBpos : (0 : Rat) < |(i64wrap (base : Int) : Rat)| := abs_pos.mpr hBne
  have hcd : (0 : Rat) < (10 : Rat) ^ dec := by positivity
  have hc6 : (0 : Rat) < (10 : Rat) ^ PRICE_DECIMALS := by positivity
  have hcd15 : ((10 : Rat) ^ dec) ≤ 10 ^ 15 := by
    apply pow_le_pow_right₀ (by norm_num) hdec
  have hrw : ((i64wrap (quote : Int) : Rat) / (10 ^ PRICE_DECIMALS : Rat)) /
      ((i64wrap (base : Int) : Rat) / (10 ^ dec : Rat)) =
      ((i64wrap (quote : Int) : Rat) * 10 ^ dec) /
        ((10 ^ PRICE_DECIMALS : Rat) * (i64wrap (base : Int) : Rat)) := by
    field_simp
  rw [hrw, abs_div, abs_mul, abs_mul, abs_of_pos hcd, abs_of_pos hc6]
  rw [div_lt_iff₀ (mul_pos hc6 hBpos)]
  calc |(i64wrap (quote : Int) : Rat)| * (10 : Rat) ^ dec
      ≤ 2 ^ 63 * 10 ^ 15 := mul_le_mul hQ hcd15 (le_of_lt hcd) (by norm_num)
    _ < 2 ^ 96 * 10 ^ PRICE_DECIMALS := by norm_num [PRICE_DECIMALS]
    _ = 2 ^ 96 * (10 : Rat) ^ PRICE_DECIMALS * 1 := by ring
    _ ≤ 2 ^ 96 * (10 : Rat) ^ PRICE_DECIMALS * |(i64wrap (base : Int) : Rat)| :=
        mul_le_mul_of_nonneg_left hB (by positivity)
    _ = 2 ^ 96 * ((10 : Rat) ^ PRICE_DECIMALS * |(i64wrap (base : Int) : Rat)|) := by ring

theorem fill_eval (side : PositionDirection) (fee : Int) (base quote : Nat) (oracle : Int)
    (order_id ts dec : Nat) (sig : String) (txi mi : Nat) (mt : MarketType)
    (mk : Option String) (mkoid : Option Nat) (mkfee : Option Int)
    (tk : Option String) (tkoid : Option Nat) (tkfee : Option Int)
    (hdec : dec ≤ 15) (hb : (i64wrap (base : Int)).natAbs ≠ 0) :
    ∃ f, AccountEvent.fill side fee base quote oracle order_id ts dec sig txi mi mt
        mk mkoid mkfee tk tkoid tkfee = some (.Fill f)
      ∧ f.side = sideOf side ∧ f.order_id = order_id
      ∧ f.fee = (Decimal.ofInt fee PRICE_DECIMALS).normalize := by
  have hdec28 : dec ≤ 28 := le_trans hdec (by norm_num)
  have hov := fill_price_in_range quote base dec hdec (Int.natAbs_ne_zero.mp hb)
  have hnew : Decimal.new? (i64wrap (base : Int)) dec =
      some ⟨decide (i64wrap (base : Int) < 0), (i64wrap (base : Int)).natAbs, dec⟩ := by
    simp [Decimal.new?, hdec28]
  unfold AccountEvent.fill
  split
  · next heq =>
    rw [hnew] at heq
    cases heq
  · next base_dec heq =>
    rw [hnew] at heq
    injection heq with heq
    subst heq
    generalize (i64wrap (base : Int)).natAbs = n at hb ⊢
    rw [if_neg hb, if_neg (not_le.mpr hov)]
    exact ⟨_, rfl, rfl, rfl, rfl⟩

theorem from_order_eval (o : SdkOrder) (dec : Nat) (hdec : dec ≤ 28) :
    ∃ w, OrderWithDecimals.from_order o dec = some w := by
  unfold OrderWithDecimals.from_order
  have h1 : Decimal.new? (i64wrap (o.base_asset_amount : Int)) dec =
      some ⟨decide (i64wrap (o.base_asset_amount : Int) < 0),
        (i64wrap (o.base_asset_amount : Int)).natAbs, dec⟩ := by
    simp [Decimal.new?, hdec]
  have h2 : Decimal.new? (i64wrap (o.base_asset_amount_filled : Int)) dec =
      some ⟨decide (i64wrap (o.base_asset_amount_filled : Int) < 0),
        (i64wrap (o.base_asset_amount_filled : Int)).natAbs, dec⟩ := by
    simp [Decimal.new?, hdec]
  rw [h1, h2]
  exact ⟨_, rfl⟩

theorem map_orderfill_spec (pd : ProgramData) (maker : Option Nat) (maker_fee : Int)
    (maker_order_id : Nat) (maker_side : Option PositionDirection) (taker : Option Nat)
    (taker_fee : Nat) (taker_order_id : Nat) (taker_side : Option PositionDirection)
    (base quote : Nat) (oracle : Int) (mi : Nat) (mt : MarketType) (sigr : String)
    (txi ts S dec : Nat)
    (hdec : get_market_decimals pd ⟨mi, mt⟩ = some dec) (hdec15 : dec ≤ 15)
    (hbase0 : 0 < base) (hbase64 : base < 2 ^ 64)
    (hms : maker = some S → maker_side.isSome)
    (hts : maker ≠ some S → taker = some S → taker_side.isSome) :
    ∃ out,
      map_drift_event_for_account pd
          (.OrderFill maker maker_fee maker_order_id maker_side taker taker_fee
            taker_order_id taker_side base quote oracle mi mt sigr txi ts) S =
        some (.Fills, out)
      ∧ (out.isSome ↔ (maker = some S ∨ taker = some S))
      ∧ (∀ ms, maker = some S → maker_side = some ms →
          ∃ f, out = some (.Fill f) ∧ f.side = sideOf ms ∧ f.order_id = maker_order_id
            ∧ f.fee = (Decimal.ofInt maker_fee PRICE_DECIMALS).normalize)
      ∧ (∀ tsd, maker ≠ some S → taker = some S → taker_side = some tsd →
          ∃ f, out = some (.Fill f) ∧ f.side = sideOf tsd ∧ f.order_id = taker_order_id
            ∧ f.fee = (Decimal.ofInt (i64wrap taker_fee) PRICE_DECIMALS).normalize) := by
  have hb : (i64wrap (base : Int)).natAbs ≠ 0 := by
    have := i64wrap_natCast_ne_zero base hbase0 hbase64
    omega
  by_cases hmk : maker = some S
  · subst hmk
    obtain ⟨ms, hms'⟩ := Option.isSome_iff_exists.mp (hms rfl)
    subst hms'
    obtain ⟨f, hf, hside, hoid, hfee⟩ := fill_eval ms maker_fee base quote oracle
      maker_order_id ts dec sigr txi mi mt ((some S).map pubkeyString) (some maker_order_id)
      (some maker_fee) (taker.map pubkeyString) (some taker_order_id)
      (some (i64wrap taker_fee)) hdec15 hb
    have hmap : map_drift_event_for_account pd
        (.OrderFill (some S) maker_fee maker_order_id (some ms) taker taker_fee
          taker_order_id taker_side base quote oracle mi mt sigr txi ts) S =
        some (.Fills, some (.Fill f)) := by
      simp only [map_drift_event_for_account]
      split
      · next heq =>
        rw [hdec] at heq
        cases heq
      · next decs heq =>
        rw [hdec] at heq
        injection heq with heq
        subst heq
        simp only [if_true]
        rw [hf]
    refine ⟨some (.Fill f), hmap, by simp, ?_, ?_⟩
    · intro ms' _ h2
      injection h2 with h2
      subst h2
      exact ⟨f, rfl, hside, hoid, hfee⟩
    · intro tsd h1 _ _
      exact absurd rfl h1
  · by_cases htk : taker = some S
    · subst htk
      obtain ⟨tsd, hts'⟩ := Option.isSome_iff_exists.mp (hts hmk rfl)
      subst hts'
      obtain ⟨f, hf, hside, hoid, hfee⟩ := fill_eval tsd (i64wrap taker_fee) base quote oracle
        taker_order_id ts dec sigr txi mi mt (maker.map pubkeyString) (some maker_order_id)
        (some maker_fee) ((some S).map pubkeyString) (some taker_order_id)
        (some (i64wrap taker_fee)) hdec15 hb
      have hmap : map_drift_event_for_account pd
          (.OrderFill maker maker_fee maker_order_id maker_side (some S) taker_fee
            taker_order_id (some tsd) base quote oracle mi mt sigr txi ts) S =
          some (.Fills, some (.Fill f)) := by
        simp only [map_drift_event_for_account]
        split
        · next heq =>
          rw [hdec] at heq
          cases heq
        · next decs heq =>
          rw [hdec] at heq
          injection heq with heq
          subst heq
          simp only [if_true]
          rw [hf, if_neg hmk]
      refine ⟨some (.Fill f), hmap, by simp, ?_, ?_⟩
      · intro ms h1 _
        exact absurd h1 hmk
      · intro tsd' _ _ h3
        injection h3 with h3
        subst h3
        exact ⟨f, rfl, hside, hoid, hfee⟩
    · have hmap : map_drift_event_for_account pd
          (.OrderFill maker maker_fee maker_order_id maker_side taker taker_fee
            taker_order_id taker_side base quote oracle mi mt sigr txi ts) S =
          some (.Fills, none) := by
        simp only [map_drift_event_for_account]
        split
        · next heq =>
          rw [hdec] at heq
          cases heq
        · next decs heq =>
          rw [hdec] at heq
          injection heq with heq
          subst heq
          rw [if_neg hmk, if_neg htk]
      refine ⟨none, hmap, by simp [hmk, htk], ?_, ?_⟩
      · intro ms h1 _
        exact absurd h1 hmk
      · intro tsd _ h2 _
        exact absurd h2 htk

/-- Claim C6 (amended): for a raw `OrderFill` whose market decimals are
cached and at most 15 — so the price quotient of a `u64` quote over a
nonzero `u64` base stays below the 96-bit decimal capacity — whose filled
base amount is a nonzero `u64`, and whose matching leg carries its side, the
mapping emits at most one `Fill` — the single `Option` slot of the result —
and emits it iff the subscriber equals the maker or the taker (a third party
gets `none`); the emitted side, fee and order id come from the maker leg
when the subscriber is the maker, else from the taker leg. Without those
provisos the source panics instead of filtering: a zero base amount or an
overflowing quotient aborts the price division, a missing matched side hits
`unwrap`, an unknown market hits `expect`. -/
theorem c6_fill_filter (pd : ProgramData) (maker : Option Nat) (maker_fee : Int)
    (maker_order_id : Nat) (maker_side : Option PositionDirection) (taker : Option Nat)
    (taker_fee : Nat) (taker_order_id : Nat) (taker_side : Option PositionDirection)
    (base quote : Nat) (oracle : Int) (mi : Nat) (mt : MarketType) (sigr : String)
    (txi ts S dec : Nat)
    (hdec : get_market_decimals pd ⟨mi, mt⟩ = some dec) (hdec15 : dec ≤ 15)
    (hbase0 : 0 < base) (hbase64 : base < 2 ^ 64)
    (hms : maker = some S → maker_side.isSome)
    (hts : maker ≠ some S → taker = some S → taker_side.isSome) :
    ∃ out,
      map_drift_event_for_account pd
          (.OrderFill maker maker_fee maker_order_id maker_side taker taker_fee
            taker_order_id taker_side base quote oracle mi mt sigr txi ts) S =
        some (.Fills, out)
      ∧ (out.isSome ↔ (maker = some S ∨ taker = some S))
      ∧ (∀ ms, maker = some S → maker_side = some ms →
          ∃ f, out = some (.Fill f) ∧ f.side = sideOf ms ∧ f.order_id = maker_order_id
            ∧ f.fee = (Decimal.ofInt maker_fee PRICE_DECIMALS).normalize)
      ∧ (∀ tsd, maker ≠ some S → taker = some S → taker_side = some tsd →
          ∃ f, out = some (.Fill f) ∧ f.side = sideOf tsd ∧ f.order_id = taker_order_id
            ∧ f.fee = (Decimal.ofInt (i64wrap taker_fee) PRICE_DECIMALS).normalize) :=
  map_orderfill_spec pd maker maker_fee maker_order_id maker_side taker taker_fee
    taker_order_id taker_side base quote oracle mi mt sigr txi ts S dec hdec hdec15
    hbase0 hbase64 hms hts

/-- Claim C6 witness: spec scenario 7's second half — the subscriber is the
taker of a fill, so a `Fill` is emitted on the fills channel. -/
theorem c6_fill_filter_witness :
    ∃ out, map_drift_event_for_account pdStd
        (.OrderFill (some 5) 100 11 (some .Long) (some 3) 250 22 (some .Short)
          5000000000 519000000 102000000 0 .Perp "sig" 6 1) 3 =
      some (.Fills, out) ∧ out.isSome = true := by
  obtain ⟨out, h1, h2, _, _⟩ := c6_fill_filter pdStd (some 5) 100 11 (some .Long) (some 3)
    250 22 (some .Short) 5000000000 519000000 102000000 0 .Perp "sig" 6 1 3 9
    rfl (by norm_num) (by norm_num) (by norm_num) (by decide) (by decide)
  exact ⟨out, h1, h2.mpr (Or.inr rfl)⟩

/-- Claim C6 counterexample: `fillEvZeroBase`'s maker is sub-account 1, so
the claim requires a `Fill` to be emitted to subscriber 1, but the mapping
panics (`none`) instead: the filled base amount is zero and the price
division `quote / base` divides by the zero decimal. -/
theorem c6_fill_filter_counterexample :
    map_drift_event_for_account pdStd fillEvZeroBase 1 = none := by
  decide

/-- Claim C7 (amended): `map_drift_event_for_account` returns a
`(channel, Option AccountEvent)` pair on every `DriftEvent` input provided
the panic conditions are excluded: the event's market decimals must be in
the program data cache — at most 15 for a fill matching the subscriber
(keeping the price quotient inside the 96-bit decimal range), at most 28
for an order create — and a fill whose maker or taker is the subscriber
must carry the matching leg's side and a nonzero `u64` base amount. As
stated — for every field value — the claim is false: `get_market_decimals`
panics on an unknown spot market, the side `unwrap`s panic on a missing
side, and the fill price division panics on a zero base amount or an
overflowing quotient. -/
theorem c7_map_total (pd : ProgramData) (e : DriftEvent) (S : Nat)
    (h : map_total_conditions pd e S) :
    (map_drift_event_for_account pd e S).isSome = true := by
  cases e with
  | OrderFill mk mf moid msd tk tf toid tsd base quote op mi mt sig txi ts =>
    obtain ⟨⟨dec, hdec, hdec28⟩, hrest⟩ := h
    by_cases hmatch : mk = some S ∨ tk = some S
    · obtain ⟨hb0, hb64, hmside, htside⟩ := hrest hmatch
      obtain ⟨out, h1, _, _, _⟩ := map_orderfill_spec pd mk mf moid msd tk tf toid tsd base
        quote op mi mt sig txi ts S dec hdec (hdec28 hmatch) hb0 hb64 hmside htside
      rw [h1]
      rfl
    · push_neg at hmatch
      obtain ⟨hmk, htk⟩ := hmatch
      have hmap : map_drift_event_for_account pd
          (.OrderFill mk mf moid msd tk tf toid tsd base quote op mi mt sig txi ts) S =
          some (.Fills, none) := by
        simp only [map_drift_event_for_account]
        split
        · next heq =>
          rw [hdec] at heq
          cases heq
        · next decs heq =>
          rw [hdec] at heq
          injection heq with heq
          subst heq
          rw [if_neg hmk, if_neg htk]
      rw [hmap]
      rfl
  | OrderCancel tk mk toid moid sig txi ts => rfl
  | OrderCancelMissing oid uoid sig => rfl
  | OrderExpire oid fee ts sig => rfl
  | OrderCreate ord ts sig txi =>
    obtain ⟨dec, hdec, hdec28⟩ := h
    obtain ⟨w, hw⟩ := from_order_eval ord dec hdec28
    have hmap : map_drift_event_for_account pd (.OrderCreate ord ts sig txi) S =
        some (.Orders, some (.OrderCreate w ts sig txi)) := by
      simp only [map_drift_event_for_account]
      split
      · next heq =>
        rw [hdec] at heq
        cases heq
      · next decs heq =>
        rw [hdec] at heq
        injection heq with heq
        subst heq
        rw [hw]
    rw [hmap]
    rfl
  | FundingPayment amount mi ts txi sig => rfl

/-- Claim C7 witness: a funding payment event maps without panicking. -/
theorem c7_map_total_witness :
    (map_drift_event_for_account pdStd (.FundingPayment 5 0 1 2 "s") 4).isSome = true :=
  c7_map_total pdStd (.FundingPayment 5 0 1 2 "s") 4 trivial

/-- Claim C7 counterexample: an `OrderCreate` on spot market 7, which is not
in the cache, panics (`none`) in `get_market_decimals`'s
`.expect("market exists")` — the mapping is not total. -/
theorem c7_map_total_counterexample :
    map_drift_event_for_account pdStd (.OrderCreate sdkOrderSpot7 0 "s" 0) 0 = none := by
  decide

/-- Claim C8 (amended): a write request addressing a spot market unknown to
the program data cache does not produce a `BadRequest` (nor any
`ControllerError`): `get_market_decimals` panics in its
`.expect("market exists")`, so the handler crashes (`none`) before any error
mapping or `send_tx` is reached. -/
theorem c8_unknown_market_panics (pd : ProgramData) (orders : List PlaceOrder)
    (o : PlaceOrder) (ho : o ∈ orders) (hspot : o.market.market_type = .Spot)
    (hunknown : pd.spotDecimals o.market.market_index = none) :
    place_orders pd orders = none := by
  have hdec : get_market_decimals pd o.market = none := by
    unfold get_market_decimals
    rw [hspot]
    exact hunknown
  have hbuild : place_orders_build pd orders = none := by
    induction orders with
    | nil => cases ho
    | cons a rest ih =>
      rcases List.mem_cons.mp ho with h | h
      · subst h
        simp [place_orders_build, hdec]
      · have hrest := ih h
        unfold place_orders_build
        rw [hrest]
        cases get_market_decimals pd a.market <;> rfl
  unfold place_orders
  rw [hbuild]

/-- Claim C8 witness: a perp order followed by an order on unknown spot
market 5 panics the whole request. -/
theorem c8_unknown_market_panics_witness :
    place_orders pdStd [placeOrderEx, spotPlaceOrder5] = none := by
  exact c8_unknown_market_panics pdStd [placeOrderEx, spotPlaceOrder5] spotPlaceOrder5
    (by decide) rfl rfl

/-- Claim C8 counterexample: a place request on spot market 99, unknown to
the cache, ends in a panic (`none`) — there is no `BadRequest` (or any
error response) path for an unknown market. -/
theorem c8_unknown_market_counterexample :
    place_orders pdStd [spotPlaceOrder99] = none := rfl

/-- Claim C10: `Order::from_sdk_order` (at any base decimals within the
decimal type's scale bound) sets `oracle_price_offset = None` exactly when
the raw `i32` offset is zero, and `Some(Decimal::new(offset,
PRICE_DECIMALS))` — the offset divided by `10 ^ 6` — otherwise; since serde
skips `None`, a `GET /orders` row omits the `oraclePriceOffset` field
precisely for orders with a zero raw offset, and a zero offset is never
rendered. -/
theorem c10_oracle_offset_rendering (v : SdkOrder) (d : Nat) (hd : d ≤ 28) :
    ∃ g, GatewayOrder.from_sdk_order v d = some g
      ∧ (g.oracle_price_offset = none ↔ v.oracle_price_offset = 0)
      ∧ (v.oracle_price_offset ≠ 0 →
          g.oracle_price_offset = some (Decimal.ofInt v.oracle_price_offset PRICE_DECIMALS))
      ∧ (g.rendersOraclePriceOffset = false ↔ v.oracle_price_offset = 0) := by
  have h1 : Decimal.new? (i64wrap (v.price : Int)) PRICE_DECIMALS =
      some ⟨decide (i64wrap (v.price : Int) < 0), (i64wrap (v.price : Int)).natAbs,
        PRICE_DECIMALS⟩ := by
    simp [Decimal.new?, PRICE_DECIMALS]
  have h2 : Decimal.new?
      (i64wrap (i64wrap (v.base_asset_amount : Int) * (1 - 2 * directionNum v.direction))) d =
      some ⟨decide (i64wrap (i64wrap (v.base_asset_amount : Int) *
          (1 - 2 * directionNum v.direction)) < 0),
        (i64wrap (i64wrap (v.base_asset_amount : Int) *
          (1 - 2 * directionNum v.direction))).natAbs, d⟩ := by
    simp [Decimal.new?, hd]
  have h3 : Decimal.new? (i64wrap (v.base_asset_amount_filled : Int)) d =
      some ⟨decide (i64wrap (v.base_asset_amount_filled : Int) < 0),
        (i64wrap (v.base_asset_amount_filled : Int)).natAbs, d⟩ := by
    simp [Decimal.new?, hd]
  unfold GatewayOrder.from_sdk_order
  rw [h1, h2, h3]
  refine ⟨_, rfl, ?_, ?_, ?_⟩
  · by_cases hz : v.oracle_price_offset = 0 <;> simp [hz]
  · intro hz
    simp [hz]
  · by_cases hz : v.oracle_price_offset = 0 <;>
      simp [hz, GatewayOrder.rendersOraclePriceOffset]

/-- Claim C10 witness: a zero raw offset maps to `None` (field omitted); the
raw offset `-500000` maps to `Some(-0.5)`. -/
theorem c10_oracle_offset_rendering_witness :
    (∃ g, GatewayOrder.from_sdk_order sdkOrderZeroOffset 9 = some g
      ∧ g.rendersOraclePriceOffset = false)
    ∧ (∃ g, GatewayOrder.from_sdk_order sdkOrderNegOffset 9 = some g
      ∧ g.oracle_price_offset = some ⟨true, 500000, 6⟩) := by
  constructor
  · obtain ⟨g, hg, _, _, hr⟩ := c10_oracle_offset_rendering sdkOrderZeroOffset 9 (by norm_num)
    exact ⟨g, hg, hr.mpr rfl⟩
  · obtain ⟨g, hg, _, hs, _⟩ := c10_oracle_offset_rendering sdkOrderNegOffset 9 (by norm_num)
    refine ⟨g, hg, (hs (by decide)).trans (by decide)⟩
